import Mathlib

/-!
Verification of the rate-inference and result-aggregation subsystem of the
apache-cassandra-experiments repository.

The development shallowly embeds the relevant Python code:

* `src/experiment/run.py` — `get_rate_limiter`, the rate-expression dispatcher;
* `src/experiment/util/infer.py` — `InferMethod.infer` and `MeanRateInfer`
  (filter / reduce / aggregate pipeline over a tree of per-run result CSVs);
* `src/experiment/tidy.py` — resource-utilization (dstat) header normalization,
  `histogram_aggregator`, the per-run histogram merge, the worker-pool
  construction, and the final per-category concatenation.

Python floats are modelled by `ℚ` (the values manipulated by the code are
decimal literals, sums, maxima and products, all exact); `float("inf")` as an
upper time bound is modelled by `Option ℚ` with `none` standing for `+∞`.
Exceptions are modelled by `Except`: a raised exception short-circuits the
surrounding loops exactly as the `Except` monad does.  Dataframes are modelled
by lists of rows in file order.
-/

/-! ### Character-list string utilities

The Python code manipulates expression strings with `str.startswith` and
`str.split`; these are embedded as structurally recursive functions on
`List Char` so that they evaluate inside proofs. -/

/-- Decides whether the second character list is an initial segment of the
first (model of Python `str.startswith`). -/
def listStartsWith : List Char → List Char → Bool
  | _, [] => true
  | [], _ :: _ => false
  | a :: as, b :: bs => a == b && listStartsWith as bs

/-- Splits a character list at every occurrence of `sep`
(model of Python `str.split` with a one-character separator). -/
def splitOnChar (sep : Char) : List Char → List (List Char)
  | [] => [[]]
  | c :: cs =>
    let rest := splitOnChar sep cs
    if c == sep then [] :: rest
    else
      match rest with
      | [] => [[c]]
      | h :: t => (c :: h) :: t

/-- Reads a list of decimal digit characters as a natural number. -/
def digitsToNat (cs : List Char) : ℕ := cs.foldl (fun a c => 10 * a + (c.toNat - 48)) 0

/-- Reads an unsigned decimal literal, with an optional fractional part after
a dot, as a rational number. -/
def parseRatAux (cs : List Char) : ℚ :=
  let intPart := cs.takeWhile (fun c => !(c == '.'))
  let rest := cs.dropWhile (fun c => !(c == '.'))
  match rest with
  | [] => (digitsToNat intPart : ℚ)
  | _ :: frac => (digitsToNat intPart : ℚ) + (digitsToNat frac : ℚ) / (10 ^ frac.length : ℚ)

/-- Modelled from Python `float()` on the plain decimal literals used by the
rate expressions of this repository: an optional sign followed by digits and
an optional fractional part.  The result is exact as a rational number. -/
def parseRat (s : String) : ℚ :=
  match s.toList with
  | '-' :: cs => - parseRatAux cs
  | '+' :: cs => parseRatAux cs
  | cs => parseRatAux cs

/-- Model of Python `str.startswith` on `String`. -/
def strStartsWith (s pat : String) : Bool := listStartsWith s.toList pat.toList

/-- Model of Python `str.split(sep)` for a one-character separator. -/
def strSplit (sep : Char) (s : String) : List String :=
  (splitOnChar sep s.toList).map (fun cs => String.mk cs)

/-! ### Rate-expression dispatch (`get_rate_limiter`, src/experiment/run.py) -/

/-- Exception raised by `get_rate_limiter` on an unrecognized expression. -/
inductive RateError
  | rateLimitFormatException
deriving DecidableEq

/-- Embedding of `get_rate_limiter` from `src/experiment/run.py`.  A missing
expression (`pd.isna`) is modelled by `none`.  The returned pair is the tag
and the rate-limiter closure over the run index.  The `infer=` branch
delegates to `Infer(csv_input, basepath).infer_from_expr`, abstracted here as
the function argument `infer_from_expr`. -/
def get_rate_limiter (expr : Option String) (infer_from_expr : String → ℚ) :
    Except RateError (String × (ℤ → ℚ)) :=
  match expr with
  | none => .ok ("none", fun _ => 0)
  | some s =>
    if strStartsWith s "none" then
      .ok ("none", fun _ => 0)
    else if strStartsWith s "infer=" then
      let expr_args := (strSplit '=' s).getD 1 ""
      .ok ("infer", fun _ => infer_from_expr expr_args)
    else if strStartsWith s "linear=" then
      let expr_args := strSplit ',' ((strSplit '=' s).getD 1 "")
      let start_rate := parseRat (expr_args.getD 0 "")
      let coeff_rate := parseRat (expr_args.getD 1 "")
      .ok ("linear", fun run_index => start_rate + ((run_index : ℚ) - 1) * coeff_rate)
    else if strStartsWith s "fixed=" then
      let fixed_rate := parseRat ((strSplit '=' s).getD 1 "")
      .ok ("fixed", fun _ => fixed_rate)
    else
      .error .rateLimitFormatException

/-- Resolving a rate expression at a given run index: build the limiter with
`get_rate_limiter` and apply its closure. -/
def resolve_rate (expr : Option String) (infer_from_expr : String → ℚ) (run_index : ℤ) :
    Except RateError ℚ :=
  (get_rate_limiter expr infer_from_expr).map (fun p => p.2 run_index)

/-! ### MeanRate inference (`src/experiment/util/infer.py`) -/

/-- One data row of a per-host result CSV: the epoch column `t` and the
`mean_rate` column (the only columns the MeanRate method reads). -/
structure ResultRow where
  t : ℚ
  mean_rate : ℚ
deriving DecidableEq

/-- One result CSV file, as the list of its data rows in file order. -/
abbrev FileCSV := List ResultRow

/-- One `run-*` directory: the matching result CSV files it contains. -/
abbrev RunDir := List FileCSV

/-- One results tree (`basepath`): the matching run directories. -/
abbrev ResultTree := List RunDir

/-- Exceptions escaping `InferMethod.infer`: the `EmptySetException` raised
when no run produced a value, and the pandas `IndexError` raised by
`df.iloc[0]` on an empty dataframe. -/
inductive InferError
  | emptySet
  | indexError
deriving DecidableEq

/-- Configuration of `MeanRateInfer` as set by `init_from_args`: the rate
multiplier and the `[start_time, end_time]` window.  `end_time = none` models
`float("inf")` (the default), for which the upper bound always holds. -/
structure MeanRateConfig where
  rate : ℚ
  start_time : ℚ
  end_time : Option ℚ
deriving DecidableEq

/-- The default configuration of `MeanRateInfer.__init__`:
`rate = 1.0`, `start_time = 0.0`, `end_time = float("inf")`. -/
def defaultMeanRateConfig : MeanRateConfig := ⟨1, 0, none⟩

/-- The row predicate of `MeanRateInfer.filter_dataframe`: keep a row when its
relative time `t - t0` lies in the `[start_time, end_time]` window. -/
def keepRow (cfg : MeanRateConfig) (t0 : ℚ) (r : ResultRow) : Bool :=
  decide (cfg.start_time ≤ r.t - t0) &&
    match cfg.end_time with
    | none => true
    | some e => decide (r.t - t0 ≤ e)

/-- Embedding of `MeanRateInfer.filter_dataframe`: `df.iloc[0]` raises
`IndexError` on an empty dataframe; otherwise the relative-time column is the
`t` column minus the first row value, and rows inside the window are kept. -/
def filter_dataframe (cfg : MeanRateConfig) : FileCSV → Except InferError FileCSV
  | [] => .error .indexError
  | r0 :: rest => .ok ((r0 :: rest).filter (keepRow cfg r0.t))

/-- Embedding of the base-class `InferMethod.filter_dataframe`, which returns
the dataframe unchanged (no time-window filtering at all). -/
def base_filter_dataframe : FileCSV → Except InferError FileCSV := fun df => .ok df

/-- Maximum of a list of rationals, as pandas `Series.max` on the value lists
arising in the pipeline.  The `[]` case is unreachable in the pipeline (pandas
would return `NaN` there): every reduced dataframe is nonempty because
`filter_dataframe` raises on an empty frame and the empty-filter fallback
restores the full frame. -/
def seriesMaxD : List ℚ → ℚ
  | [] => 0
  | x :: xs => xs.foldl max x

/-- Embedding of `MeanRateInfer.reduce_dataframe`: `df["mean_rate"].max()`. -/
def reduce_dataframe (df : FileCSV) : ℚ := seriesMaxD (df.map ResultRow.mean_rate)

/-- Embedding of `MeanRateInfer.aggregate_run_values`: `values.sum()`. -/
def aggregate_run_values (values : List ℚ) : ℚ := values.sum

/-- Embedding of `MeanRateInfer.aggregate_set_values`:
`self.rate * values.max()`. -/
def aggregate_set_values (rate : ℚ) (values : List ℚ) : ℚ := rate * seriesMaxD values

/-- Effectful map over a list in the `Except` monad, mirroring a Python loop
that appends to an accumulator and aborts at the first raised exception. -/
def exceptMap (f : α → Except ε β) : List α → Except ε (List β)
  | [] => .ok []
  | x :: xs =>
    match f x with
    | .error e => .error e
    | .ok v =>
      match exceptMap f xs with
      | .error e => .error e
      | .ok vs => .ok (v :: vs)

/-- Body of the per-file loop of `InferMethod.infer`, parameterized by the
filtering method: filter the dataframe, fall back to the full dataframe when
the filtered one is empty (a warning is logged), then reduce. -/
def inferFileWith (filt : FileCSV → Except InferError FileCSV) (df : FileCSV) :
    Except InferError ℚ :=
  match filt df with
  | .error e => .error e
  | .ok fd =>
    let fd := if fd.isEmpty then df else fd
    .ok (reduce_dataframe fd)

/-- Body of the per-run loop of `InferMethod.infer`: reduce every matching
file of the run directory; when the run yielded no value a warning is logged
and the run contributes nothing (`none`), otherwise the per-file values are
aggregated with `aggregate_run_values`. -/
def inferRunWith (filt : FileCSV → Except InferError FileCSV) (run : RunDir) :
    Except InferError (Option ℚ) :=
  match exceptMap (inferFileWith filt) run with
  | .error e => .error e
  | .ok run_values =>
    if run_values.isEmpty then .ok none
    else .ok (some (aggregate_run_values run_values))

/-- Embedding of `InferMethod.infer` with the MeanRate reduce/aggregate hooks,
parameterized by the filtering method: collect one value per contributing run,
raise `EmptySetException` when no run contributed, otherwise aggregate with
`aggregate_set_values`. -/
def inferWith (filt : FileCSV → Except InferError FileCSV) (rate : ℚ) (tree : ResultTree) :
    Except InferError ℚ :=
  match exceptMap (inferRunWith filt) tree with
  | .error e => .error e
  | .ok opts =>
    let set_values := opts.filterMap id
    if set_values.isEmpty then .error .emptySet
    else .ok (aggregate_set_values rate set_values)

/-- Embedding of `MeanRateInfer(...).infer()`: the full pipeline with the
MeanRate time-window filter. -/
def infer (cfg : MeanRateConfig) (tree : ResultTree) : Except InferError ℚ :=
  inferWith (filter_dataframe cfg) cfg.rate tree

/-- MeanRate inference with no time-window filtering at all: the same pipeline
with the base-class identity filter `InferMethod.filter_dataframe`. -/
def infer_unfiltered (rate : ℚ) (tree : ResultTree) : Except InferError ℚ :=
  inferWith base_filter_dataframe rate tree

/-- The rows of a file kept by the time window: the filtered dataframe of
`MeanRateInfer.filter_dataframe` (empty input gives no rows). -/
def windowRows (cfg : MeanRateConfig) : FileCSV → FileCSV
  | [] => []
  | r0 :: rest => (r0 :: rest).filter (keepRow cfg r0.t)

/-- The per-file scalar of the MeanRate method: the maximum of the `mean_rate`
column over the windowed rows, falling back to all rows of the file when the
window kept none. -/
def file_scalar (cfg : MeanRateConfig) (df : FileCSV) : ℚ :=
  let kept := windowRows cfg df
  reduce_dataframe (if kept.isEmpty then df else kept)

/-- The per-run value: the sum of the per-file scalars of the run. -/
def run_sum (cfg : MeanRateConfig) (run : RunDir) : ℚ :=
  ((run.map (file_scalar cfg)).sum : ℚ)

/-- The per-run sums of the runs that contain at least one matching file
(a run with no file is skipped with a warning and contributes nothing). -/
def participating_run_sums (cfg : MeanRateConfig) (tree : ResultTree) : List ℚ :=
  (tree.filter (fun run => !run.isEmpty)).map (run_sum cfg)

/-! ### Resource-utilization (dstat) header normalization (`src/experiment/tidy.py`) -/

/-- Composition, for a level-0 header cell, of the pandas `read_csv` naming of
blank multi-header cells (`Unnamed: <j>_level_0`) with the code line that
turns every cell starting with `Unnamed:` back into `NaN`
(`dstat_cols.loc[...str.startswith("Unnamed:"), 0] = np.nan`): a blank CSV
cell becomes a missing value. -/
def groupCellToOpt (s : String) : Option String :=
  if s = "" then none else some s

/-- Forward fill of missing cells from the last non-missing one, as
`fillna(method="ffill")` on the group level.  A leading missing cell has no
previous value and stays missing. -/
def ffillCells (last : Option String) : List (Option String) → List (Option String)
  | [] => []
  | none :: cs => last :: ffillCells last cs
  | some s :: cs => some s :: ffillCells (some s) cs

/-- Replacement of spaces and slashes by underscores on the group level, as
`str.replace("[ /]", "_", regex=True)`. -/
def replaceSpaceSlash (s : String) : String :=
  String.mk (s.toList.map (fun c => if c == ' ' || c == '/' then '_' else c))

/-- Suffix of a character list after its last colon, when it has one. -/
def afterLastColon : List Char → Option (List Char)
  | [] => none
  | c :: cs =>
    match afterLastColon cs with
    | some suf => some suf
    | none => if c == ':' then some cs else none

/-- Embedding of `str.replace(".+:", "", regex=True)` on the metric level: the
greedy pattern removes everything up to the last colon, provided some colon
has at least one character before it (a colon at position 0 alone does not
match `.+:`). -/
def stripMetricLabel (s : String) : String :=
  match s.toList with
  | [] => s
  | c0 :: rest =>
    match afterLastColon rest with
    | some suf => String.mk suf
    | none =>
      -- no colon at index ≥ 1; a lone leading colon is not matched by the pattern
      let _ := c0
      s

/-- The column renames applied to both header levels by
`rename(columns={"total_cpu_usage": "cpu_usage", "memory_usage": "mem_usage"})`. -/
def renameLabel (s : String) : String :=
  if s = "total_cpu_usage" then "cpu_usage"
  else if s = "memory_usage" then "mem_usage"
  else s

/-- Join of the two header levels with `"__".join(col)`.  Joining a
still-missing group cell raises a `TypeError` (`nan` is not a string),
modelled by `none`. -/
def joinColumns : List (Option String × String) → Option (List String)
  | [] => some []
  | (none, _) :: _ => none
  | (some g, m) :: rest => (joinColumns rest).map (fun t => (g ++ "__" ++ m) :: t)

/-- Embedding of the dstat column-name pipeline of `tidy`
(`src/experiment/tidy.py`): blank group cells become missing and are forward
filled, spaces and slashes in the group level become underscores, colon
prefixes are stripped from the metric level, both levels are renamed, the two
levels are joined with `"__"`, and `epoch__epoch` is renamed to `epoch`. -/
def dstat_column_names (groups metrics : List String) : Option (List String) :=
  let g0 := ffillCells none (groups.map groupCellToOpt)
  let g1 := g0.map (Option.map replaceSpaceSlash)
  let m1 := metrics.map stripMetricLabel
  let g2 := g1.map (Option.map renameLabel)
  let m2 := m1.map renameLabel
  let joined := joinColumns (g2.zip m2)
  joined.map (fun cols => cols.map (fun s => if s = "epoch__epoch" then "epoch" else s))

/-! ### Histogram aggregation and the tidy pipeline (`src/experiment/tidy.py`) -/

/-- A decoded histogram snapshot, modelled by the list of its recorded values:
`HdrHistogram.decode` of the compressed blob is the identity in this model,
`get_total_count` is the length, and `add` is concatenation. -/
abbrev Snapshot := List ℕ

/-- Total recorded count of a histogram (`get_total_count`). -/
def totalCount (h : Snapshot) : ℕ := h.length

/-- One row of a histogram export CSV, with the `StartTimestamp` column and
the decoded content of the `Interval_Compressed_Histogram` column. -/
structure HistRow where
  StartTimestamp : ℚ
  Interval_Compressed_Histogram : Snapshot
deriving DecidableEq

/-- The warm-up cutoff of `tidy.py` (`START_TIME = 120`). -/
def START_TIME : ℚ := 120

/-- Embedding of `histogram_aggregator`: keep the rows with
`StartTimestamp > START_TIME`, decode each snapshot, and add to the per-host
histogram only the snapshots whose total count is positive. -/
def histogram_aggregator (hist_df : List HistRow) : Snapshot :=
  let filtered_df := hist_df.filter (fun r => decide (START_TIME < r.StartTimestamp))
  filtered_df.foldl
    (fun hist r =>
      if 0 < totalCount r.Interval_Compressed_Histogram then
        hist ++ r.Interval_Compressed_Histogram
      else hist)
    []

/-- Embedding of the per-run merge loop of `tidy`: decode every per-host
encoded histogram returned by the pool and add to the per-run histogram only
those with a positive total count. -/
def run_histogram_merge (encoded : List Snapshot) : Snapshot :=
  encoded.foldl (fun hist h => if 0 < totalCount h then hist ++ h else hist) []

/-- One client host directory of a run: the tag-filtered histogram dataframes
collected from its `histograms.csv` files (one entry per file). -/
structure TidyHost where
  histFiles : List (List HistRow)
deriving DecidableEq

/-- One `run-<i>` directory of the tidy loop: whether the directory exists on
disk, and the client host directories matching the `*.grid5000.fr` glob. -/
structure TidyRun where
  present : Bool
  clientHosts : List TidyHost
deriving DecidableEq

/-- Errors escaping the tidy pipeline: the `ValueError` raised by
`multiprocessing.Pool(processes=0)` and the `ValueError` raised by
`pd.concat([])`. -/
inductive TidyError
  | poolZeroProcesses
  | noObjectsToConcatenate
deriving DecidableEq

/-- Modelled from `multiprocessing.Pool`: constructing a pool with
`processes = 0` raises `ValueError: Number of processes must be at least 1`;
otherwise `pool.map` applies the worker to every element. -/
def poolMap (processes : ℕ) (f : α → β) (xs : List α) : Except TidyError (List β) :=
  if processes = 0 then .error .poolZeroProcesses else .ok (xs.map f)

/-- Modelled from pandas: `pd.concat` of an empty list of dataframes raises
`ValueError: No objects to concatenate`; otherwise it stacks the rows. -/
def pd_concat (dfs : List (List α)) : Except TidyError (List α) :=
  if dfs.isEmpty then .error .noObjectsToConcatenate else .ok dfs.flatten

/-- The `latency_dfs` list of one run of `tidy`: one tag-filtered dataframe
per `histograms.csv` file of every matching client host. -/
def latencyDfs (run : TidyRun) : List (List HistRow) :=
  (run.clientHosts.map TidyHost.histFiles).flatten

/-- The per-run histogram stage of `tidy`: build a worker pool sized to the
number of collected dataframes (`Pool(processes=len(latency_dfs))`), map
`histogram_aggregator` over them, and merge the results into the per-run
histogram. -/
def processRunHistogram (run : TidyRun) : Except TidyError Snapshot :=
  match poolMap (latencyDfs run).length histogram_aggregator (latencyDfs run) with
  | .error e => .error e
  | .ok encoded => .ok (run_histogram_merge encoded)

/-- The latency-category accumulation of `tidy` over every run of the
campaign: a run whose directory does not exist is skipped with a warning;
every present run appends one per-run fragment. -/
def tidyLatencyFragments (runs : List TidyRun) : Except TidyError (List Snapshot) :=
  exceptMap processRunHistogram (runs.filter (fun r => r.present))

/-- The final save step of `tidy` for the latency category: concatenate the
accumulated fragments with `pd.concat` and write the CSV. -/
def tidy_latency_table (runs : List TidyRun) : Except TidyError (List ℕ) :=
  match tidyLatencyFragments runs with
  | .error e => .error e
  | .ok frags => pd_concat frags

/-! ## Helper lemmas -/

theorem exceptMap_ok_of_forall {α ε β : Type _} {f : α → Except ε β} {g : α → β} :
    ∀ (l : List α), (∀ x ∈ l, f x = .ok (g x)) → exceptMap f l = .ok (l.map g) := by
  intro l
  induction l with
  | nil => intro _; rfl
  | cons x xs ih =>
    intro h
    have hx := h x (by simp)
    have hxs := ih (fun y hy => h y (by simp [hy]))
    simp [exceptMap, hx, hxs]

theorem exceptMap_error_of_mem {α ε β : Type _} {f : α → Except ε β} {e : ε} :
    ∀ (l : List α), (∀ y ∈ l, f y = .error e ∨ ∃ v, f y = .ok v) →
      (∃ x ∈ l, f x = .error e) → exceptMap f l = .error e := by
  intro l
  induction l with
  | nil =>
    rintro _ ⟨x, hx, _⟩
    cases hx
  | cons a as ih =>
    rintro hall ⟨x, hx, hxe⟩
    rcases hall a (by simp) with ha | ⟨v, hv⟩
    · simp [exceptMap, ha]
    · have hex : ∃ x ∈ as, f x = .error e := by
        rcases List.mem_cons.mp hx with rfl | hmem
        · rw [hv] at hxe; cases hxe
        · exact ⟨x, hmem, hxe⟩
      have tail := ih (fun y hy => hall y (by simp [hy])) hex
      simp [exceptMap, hv, tail]

theorem exceptMap_congr {α ε β : Type _} {f g : α → Except ε β} :
    ∀ (l : List α), (∀ x ∈ l, f x = g x) → exceptMap f l = exceptMap g l := by
  intro l
  induction l with
  | nil => intro _; rfl
  | cons a as ih =>
    intro h
    simp only [exceptMap, h a (by simp), ih (fun y hy => h y (by simp [hy]))]

theorem inferFileWith_filter_ok (cfg : MeanRateConfig) (df : FileCSV) (h : df ≠ []) :
    inferFileWith (filter_dataframe cfg) df = .ok (file_scalar cfg df) := by
  cases df with
  | nil => exact absurd rfl h
  | cons r0 rest => rfl

theorem inferRunWith_filter_ok (cfg : MeanRateConfig) (run : RunDir)
    (h : ∀ df ∈ run, df ≠ []) :
    inferRunWith (filter_dataframe cfg) run
      = .ok (if run.isEmpty then none else some (run_sum cfg run)) := by
  have hm := exceptMap_ok_of_forall (f := inferFileWith (filter_dataframe cfg))
      (g := file_scalar cfg) run (fun df hdf => inferFileWith_filter_ok cfg df (h df hdf))
  cases run with
  | nil => rfl
  | cons df rest =>
    simp only [inferRunWith, hm]
    rfl

theorem inferRunWith_filter_error (cfg : MeanRateConfig) (run : RunDir)
    (h : ∃ df ∈ run, df = []) :
    inferRunWith (filter_dataframe cfg) run = .error .indexError := by
  have hall : ∀ df ∈ run, inferFileWith (filter_dataframe cfg) df = .error .indexError ∨
      ∃ v, inferFileWith (filter_dataframe cfg) df = .ok v := by
    intro df _
    cases df with
    | nil => exact Or.inl rfl
    | cons r0 rest => exact Or.inr ⟨_, inferFileWith_filter_ok cfg _ (by simp)⟩
  obtain ⟨df, hdf, rfl⟩ := h
  have he := exceptMap_error_of_mem run hall ⟨[], hdf, rfl⟩
  simp [inferRunWith, he]

theorem filterMap_id_map_run_sums (cfg : MeanRateConfig) :
    ∀ (tree : ResultTree),
      ((tree.map (fun run => if run.isEmpty then none else some (run_sum cfg run))).filterMap id)
        = participating_run_sums cfg tree := by
  intro tree
  induction tree with
  | nil => rfl
  | cons run rest ih =>
    simp only [participating_run_sums] at ih ⊢
    cases run with
    | nil => simpa using ih
    | cons df run' => simpa using ih

/-! ## Claim theorems -/

/-- C6: when no matching run produced any usable value (here: every matched
run directory contains no matching result CSV, which subsumes the case of no
run directory at all), inference raises `EmptySetException` instead of
returning a value. -/
theorem infer_empty_set_exception (cfg : MeanRateConfig) (tree : ResultTree)
    (h : ∀ run ∈ tree, run = []) :
    infer cfg tree = .error .emptySet := by
  have hm := exceptMap_ok_of_forall (f := inferRunWith (filter_dataframe cfg))
      (g := fun _ => (none : Option ℚ)) tree
      (fun run hrun => by rw [h run hrun]; rfl)
  have hnone : (tree.map (fun _ => (none : Option ℚ))).filterMap id = [] := by
    induction tree with
    | nil => rfl
    | cons run rest ih => simp [ih]
  simp [infer, inferWith, hm, hnone]

/-- C6 witness: a tree of two run directories, each with no matching CSV,
raises `EmptySetException`. -/
theorem infer_empty_set_exception_witness :
    infer defaultMeanRateConfig [[], []] = .error .emptySet :=
  infer_empty_set_exception defaultMeanRateConfig [[], []]
    (by
      intro run hrun
      rcases List.mem_cons.mp hrun with rfl | h
      · rfl
      · exact List.mem_singleton.mp h)

/-- C5: when the time-window filter keeps no row of a (nonempty) per-host
result CSV, the reduction falls back to the full unfiltered file (a warning is
logged) and the file still contributes the maximum of `mean_rate` over all its
rows, instead of being excluded or failing. -/
theorem empty_filter_fallback (cfg : MeanRateConfig) (df : FileCSV)
    (hne : df ≠ []) (hemp : windowRows cfg df = []) :
    inferFileWith (filter_dataframe cfg) df = .ok (reduce_dataframe df) := by
  rw [inferFileWith_filter_ok cfg df hne]
  simp [file_scalar, hemp]

/-- C5 witness: with `start_time = 1000`, a file whose only row has relative
time `0` is filtered to nothing yet still contributes its own maximum. -/
theorem empty_filter_fallback_witness :
    inferFileWith (filter_dataframe ⟨1, 1000, none⟩) [⟨0, 5⟩] = .ok 5 := by
  have h := empty_filter_fallback ⟨1, 1000, none⟩ [⟨0, 5⟩] (by simp)
    (by norm_num [windowRows, keepRow, List.filter])
  rw [h]
  norm_num [reduce_dataframe, seriesMaxD]

/-- C9: a result CSV with zero data rows makes `filter_dataframe` read
`df.iloc[0]` of an empty dataframe, raising an `IndexError` that propagates
out of the whole inference call: an empty but present result file is fatal,
not skipped. -/
theorem empty_result_csv_fatal (cfg : MeanRateConfig) (tree : ResultTree)
    (h : ∃ run ∈ tree, ∃ df ∈ run, df = []) :
    infer cfg tree = .error .indexError := by
  have hall : ∀ run ∈ tree, inferRunWith (filter_dataframe cfg) run = .error .indexError ∨
      ∃ v, inferRunWith (filter_dataframe cfg) run = .ok v := by
    intro run _
    by_cases hr : ∃ df ∈ run, df = []
    · exact Or.inl (inferRunWith_filter_error cfg run hr)
    · push_neg at hr
      exact Or.inr ⟨_, inferRunWith_filter_ok cfg run hr⟩
  obtain ⟨run, hrun, hdf⟩ := h
  have he := exceptMap_error_of_mem tree hall
    ⟨run, hrun, inferRunWith_filter_error cfg run hdf⟩
  simp [infer, inferWith, he]

/-- C9 witness: a tree whose only run contains one empty result CSV aborts
with `IndexError`. -/
theorem empty_result_csv_fatal_witness :
    infer defaultMeanRateConfig [[[]]] = .error .indexError :=
  empty_result_csv_fatal defaultMeanRateConfig [[[]]]
    ⟨[[]], by simp, [], by simp, rfl⟩

/-- C4: a decoded snapshot with total recorded count 0 is never added to a
merged histogram, at both merge scopes: a host all of whose retained
(post-warm-up) snapshots have zero count merges to a histogram of total count
0, and a per-host histogram of total count 0 contributes nothing to the
per-run merge. -/
theorem histogram_zero_count_never_merged :
    (∀ hist_df : List HistRow,
        (∀ r ∈ hist_df, START_TIME < r.StartTimestamp →
          totalCount r.Interval_Compressed_Histogram = 0) →
        totalCount (histogram_aggregator hist_df) = 0)
    ∧ ∀ (pre post : List Snapshot) (h : Snapshot), totalCount h = 0 →
        run_histogram_merge (pre ++ h :: post) = run_histogram_merge (pre ++ post) := by
  constructor
  · intro hist_df hzero
    have key : ∀ (l : List HistRow) (acc : Snapshot),
        (∀ r ∈ l, totalCount r.Interval_Compressed_Histogram = 0) →
        l.foldl (fun hist r =>
          if 0 < totalCount r.Interval_Compressed_Histogram then
            hist ++ r.Interval_Compressed_Histogram
          else hist) acc = acc := by
      intro l
      induction l with
      | nil => intro acc _; rfl
      | cons r rest ih =>
        intro acc h
        have hr := h r (by simp)
        simp only [List.foldl_cons, hr]
        exact ih acc (fun y hy => h y (by simp [hy]))
    have hmem : ∀ r ∈ hist_df.filter (fun r => decide (START_TIME < r.StartTimestamp)),
        totalCount r.Interval_Compressed_Histogram = 0 := by
      intro r hr
      have := List.mem_filter.mp hr
      exact hzero r this.1 (by simpa using this.2)
    simp only [histogram_aggregator]
    rw [key _ [] hmem]
    rfl
  · intro pre post h hzero
    simp only [run_histogram_merge, List.foldl_append, List.foldl_cons, hzero]
    rfl

/-- C4 witness: a host whose only retained snapshot is empty merges to count
0, and inserting an empty per-host histogram between two others leaves the
per-run merge unchanged. -/
theorem histogram_zero_count_never_merged_witness :
    totalCount (histogram_aggregator [⟨130, []⟩]) = 0
    ∧ run_histogram_merge ([[1, 2]] ++ [] :: [[3]]) = run_histogram_merge ([[1, 2]] ++ [[3]]) :=
  ⟨histogram_zero_count_never_merged.1 [⟨130, []⟩]
      (by intro r hr _; rcases List.mem_singleton.mp hr with rfl; rfl),
    histogram_zero_count_never_merged.2 [[1, 2]] [[3]] [] rfl⟩

/-- C8: if after the whole tidy loop a category accumulated zero per-run
fragments (every run directory of the campaign was missing), producing the
output CSV raises the `pd.concat` error on an empty list instead of silently
writing an empty file. -/
theorem empty_category_concat_error (runs : List TidyRun)
    (h : ∀ r ∈ runs, r.present = false) :
    tidy_latency_table runs = .error .noObjectsToConcatenate := by
  have hfilter : runs.filter (fun r => r.present) = [] := by
    rw [List.filter_eq_nil_iff]
    intro a ha
    simp [h a ha]
  simp [tidy_latency_table, tidyLatencyFragments, hfilter, exceptMap, pd_concat]

/-- C8 witness: a campaign whose only run directory is missing yields the
concatenation error. -/
theorem empty_category_concat_error_witness :
    tidy_latency_table [⟨false, []⟩] = .error .noObjectsToConcatenate :=
  empty_category_concat_error [⟨false, []⟩]
    (by intro r hr; rcases List.mem_singleton.mp hr with rfl; rfl)

theorem processRunHistogram_cases (run : TidyRun) :
    processRunHistogram run = .error .poolZeroProcesses
      ∨ ∃ v, processRunHistogram run = .ok v := by
  by_cases h : (latencyDfs run).length = 0
  · exact Or.inl (by simp [processRunHistogram, poolMap, h])
  · refine Or.inr ⟨run_histogram_merge ((latencyDfs run).map histogram_aggregator), ?_⟩
    simp [processRunHistogram, poolMap, h]

/-- C10: an existing run directory whose clients directory yields no matching
host (or whose hosts contain no histogram export file) makes the histogram
stage build `Pool(processes=0)`, whose `ValueError` aborts the entire
aggregation instead of skipping that run. -/
theorem zero_process_pool_error (runs : List TidyRun)
    (h : ∃ r ∈ runs, r.present = true ∧ latencyDfs r = []) :
    tidy_latency_table runs = .error .poolZeroProcesses := by
  obtain ⟨r, hr, hpres, hdfs⟩ := h
  have hrf : r ∈ runs.filter (fun r => r.present) :=
    List.mem_filter.mpr ⟨hr, by simp [hpres]⟩
  have hre : processRunHistogram r = .error .poolZeroProcesses := by
    simp [processRunHistogram, poolMap, hdfs]
  have he := exceptMap_error_of_mem (runs.filter (fun r => r.present))
    (fun y _ => processRunHistogram_cases y) ⟨r, hrf, hre⟩
  simp [tidy_latency_table, tidyLatencyFragments, he]

/-- C10 witness: one existing run with no matching client host aborts the
aggregation with the zero-process pool error. -/
theorem zero_process_pool_error_witness :
    tidy_latency_table [⟨true, []⟩] = .error .poolZeroProcesses :=
  zero_process_pool_error [⟨true, []⟩]
    ⟨⟨true, []⟩, List.mem_singleton.mpr rfl, rfl, rfl⟩

/-- C1: the MeanRate inference pipeline computes, per matching file, the
maximum of `mean_rate` over the (possibly filtered, with fallback) rows, sums
the per-file maxima within each run directory, takes the maximum of the
per-run sums across runs, and multiplies by the rate multiplier.  Hypotheses:
every file has at least one data row (otherwise `IndexError`, claim C9) and
at least one run directory contains a file (otherwise `EmptySetException`,
claim C6). -/
theorem mean_rate_inference_formula (cfg : MeanRateConfig) (tree : ResultTree)
    (hfiles : ∀ run ∈ tree, ∀ df ∈ run, df ≠ [])
    (hruns : ∃ run ∈ tree, run ≠ []) :
    infer cfg tree = .ok (cfg.rate * seriesMaxD (participating_run_sums cfg tree)) := by
  have hm := exceptMap_ok_of_forall (f := inferRunWith (filter_dataframe cfg))
      (g := fun run => if run.isEmpty then none else some (run_sum cfg run)) tree
      (fun run hrun => inferRunWith_filter_ok cfg run (hfiles run hrun))
  have hfm := filterMap_id_map_run_sums cfg tree
  have hne : participating_run_sums cfg tree ≠ [] := by
    obtain ⟨run, hrun, hrne⟩ := hruns
    simp only [participating_run_sums]
    intro hnil
    have hmemf : run ∈ tree.filter (fun r => !r.isEmpty) :=
      List.mem_filter.mpr ⟨hrun, by simp [List.isEmpty_iff, hrne]⟩
    rw [List.map_eq_nil_iff.mp hnil] at hmemf
    cases hmemf
  simp only [infer, inferWith, hm, hfm]
  rw [if_neg (by simp [List.isEmpty_iff, hne])]
  rfl

/-- C1 witness: per-client `mean_rate` maxima 1000 and 1200 in run A and 900
and 900 in run B give max(1000+1200, 900+900) = 2200 under the default rate
multiplier 1.0. -/
theorem mean_rate_inference_formula_witness :
    infer defaultMeanRateConfig
      [[[⟨0, 1000⟩], [⟨0, 1200⟩]], [[⟨0, 900⟩], [⟨0, 900⟩]]] = .ok 2200 := by
  have h := mean_rate_inference_formula defaultMeanRateConfig
      [[[⟨0, 1000⟩], [⟨0, 1200⟩]], [[⟨0, 900⟩], [⟨0, 900⟩]]]
      (by
        intro run hrun df hdf
        rcases List.mem_cons.mp hrun with rfl | h
        · rcases List.mem_cons.mp hdf with rfl | h2
          · simp
          · rcases List.mem_singleton.mp h2 with rfl
            simp
        · rcases List.mem_singleton.mp h with rfl
          rcases List.mem_cons.mp hdf with rfl | h2
          · simp
          · rcases List.mem_singleton.mp h2 with rfl
            simp)
      ⟨[[⟨0, 1000⟩], [⟨0, 1200⟩]], by simp, by simp⟩
  rw [h]
  norm_num [participating_run_sums, run_sum, file_scalar, windowRows, keepRow,
    reduce_dataframe, seriesMaxD, defaultMeanRateConfig, List.filter, max_def]

theorem inferWith_congr (f g : FileCSV → Except InferError FileCSV) (rate : ℚ)
    (tree : ResultTree) (h : ∀ run ∈ tree, ∀ df ∈ run, f df = g df) :
    inferWith f rate tree = inferWith g rate tree := by
  have hrun : ∀ run ∈ tree, inferRunWith f run = inferRunWith g run := by
    intro run hr
    have hfm : exceptMap (inferFileWith f) run = exceptMap (inferFileWith g) run :=
      exceptMap_congr run (fun df hdf => by unfold inferFileWith; rw [h run hr df hdf])
    simp [inferRunWith, hfm]
  simp [inferWith, exceptMap_congr tree hrun]

/-- C7 (amended): for a results tree in which every file is nonempty and the
first row of every file carries its minimal `t` (timestamps sampled in
order), MeanRate inference with the window `[0, inf)` returns the same value
as the pipeline with no time-window filtering at all.  Without the
minimal-first-row hypothesis the claim fails (see the counterexample). -/
theorem zero_inf_window_identity (rate : ℚ) (tree : ResultTree)
    (hfiles : ∀ run ∈ tree, ∀ df ∈ run, df ≠ [])
    (hmono : ∀ run ∈ tree, ∀ df ∈ run, ∀ r ∈ df, ∀ r0, df.head? = some r0 → r0.t ≤ r.t) :
    infer ⟨rate, 0, none⟩ tree = infer_unfiltered rate tree := by
  simp only [infer, infer_unfiltered]
  apply inferWith_congr
  intro run hrun df hdf
  cases df with
  | nil => exact absurd rfl (hfiles run hrun [] hdf)
  | cons r0 rest =>
    show Except.ok ((r0 :: rest).filter (keepRow ⟨rate, 0, none⟩ r0.t)) = .ok (r0 :: rest)
    congr 1
    apply List.filter_eq_self.mpr
    intro r hr
    have hle := hmono run hrun (r0 :: rest) hdf r hr r0 rfl
    simp only [keepRow, Bool.and_eq_true, decide_eq_true_eq]
    exact ⟨sub_nonneg.mpr hle, trivial⟩

/-- C7 witness: on a tree whose single file has rows in timestamp order, the
`[0, inf)` window and no filtering agree. -/
theorem zero_inf_window_identity_witness :
    infer ⟨1, 0, none⟩ [[[⟨0, 7⟩, ⟨2, 9⟩]]] = infer_unfiltered 1 [[[⟨0, 7⟩, ⟨2, 9⟩]]] :=
  zero_inf_window_identity 1 [[[⟨0, 7⟩, ⟨2, 9⟩]]]
    (by
      intro run hrun df hdf
      rcases List.mem_singleton.mp hrun with rfl
      rcases List.mem_singleton.mp hdf with rfl
      simp)
    (by
      intro run hrun df hdf r hrr r0 hr0
      rcases List.mem_singleton.mp hrun with rfl
      rcases List.mem_singleton.mp hdf with rfl
      rw [List.head?_cons] at hr0
      injection hr0 with hr0
      subst hr0
      rcases List.mem_cons.mp hrr with rfl | h2
      · norm_num
      · rcases List.mem_singleton.mp h2 with rfl
        norm_num)

/-- C7 counterexample: a file whose first row is not its earliest sample is
changed by the `[0, inf)` window (the second row gets a negative relative
time and is dropped), so filtered and unfiltered inference disagree: the
claim as stated over every input CSV is false. -/
theorem zero_inf_window_counterexample :
    infer ⟨1, 0, none⟩ [[[⟨10, 5⟩, ⟨0, 100⟩]]] = .ok 5
    ∧ infer_unfiltered 1 [[[⟨10, 5⟩, ⟨0, 100⟩]]] = .ok 100
    ∧ infer ⟨1, 0, none⟩ [[[⟨10, 5⟩, ⟨0, 100⟩]]]
        ≠ infer_unfiltered 1 [[[⟨10, 5⟩, ⟨0, 100⟩]]] := by
  refine ⟨?_, ?_, ?_⟩ <;>
    norm_num [infer, infer_unfiltered, inferWith, inferRunWith, inferFileWith, exceptMap,
      filter_dataframe, base_filter_dataframe, keepRow, reduce_dataframe, seriesMaxD,
      aggregate_run_values, aggregate_set_values, List.filter, max_def, id_eq,
      List.filterMap_cons, List.filterMap_nil, List.isEmpty_cons, List.isEmpty_nil]

/-- C2: resolving a rate expression yields 0.0 for a missing expression and
for "none"; exactly the literal for "fixed=42.5"; and
start + (run_index - 1) * coeff for "linear=100,50", in particular 200 at
run_index = 3. -/
theorem rate_expression_resolution :
    (∀ (f : String → ℚ) (k : ℤ), resolve_rate none f k = .ok 0)
    ∧ (∀ (f : String → ℚ) (k : ℤ), resolve_rate (some "none") f k = .ok 0)
    ∧ (∀ (f : String → ℚ) (k : ℤ), resolve_rate (some "fixed=42.5") f k = .ok 42.5)
    ∧ (∀ (f : String → ℚ) (k : ℤ),
        resolve_rate (some "linear=100,50") f k = .ok (100 + ((k : ℚ) - 1) * 50))
    ∧ ∀ (f : String → ℚ), resolve_rate (some "linear=100,50") f 3 = .ok 200 := by
  have hfix : parseRat "42.5" = 42.5 := by
    have h42 : digitsToNat ['4', '2'] = 42 := by decide
    have h5 : digitsToNat ['5'] = 5 := by decide
    have htake : List.takeWhile (fun c => !(c == '.')) ['4', '2', '.', '5'] = ['4', '2'] := by
      decide
    have hdrop : List.dropWhile (fun c => !(c == '.')) ['4', '2', '.', '5'] = ['.', '5'] := by
      decide
    show parseRatAux ['4', '2', '.', '5'] = 42.5
    simp only [parseRatAux, htake, hdrop, h42, h5]
    norm_num
  have h100 : parseRat "100" = 100 := by
    have h : digitsToNat ['1', '0', '0'] = 100 := by decide
    have htake : List.takeWhile (fun c => !(c == '.')) ['1', '0', '0'] = ['1', '0', '0'] := by
      decide
    have hdrop : List.dropWhile (fun c => !(c == '.')) ['1', '0', '0'] = [] := by decide
    show parseRatAux ['1', '0', '0'] = 100
    simp only [parseRatAux, htake, hdrop, h]
    norm_num
  have h50 : parseRat "50" = 50 := by
    have h : digitsToNat ['5', '0'] = 50 := by decide
    have htake : List.takeWhile (fun c => !(c == '.')) ['5', '0'] = ['5', '0'] := by decide
    have hdrop : List.dropWhile (fun c => !(c == '.')) ['5', '0'] = [] := by decide
    show parseRatAux ['5', '0'] = 50
    simp only [parseRatAux, htake, hdrop, h]
    norm_num
  refine ⟨fun f k => rfl, fun f k => rfl, fun f k => ?_, fun f k => ?_, fun f => ?_⟩
  · show Except.ok (parseRat "42.5") = _
    rw [hfix]
  · show Except.ok (parseRat "100" + ((k : ℚ) - 1) * parseRat "50") = _
    rw [h100, h50]
  · show Except.ok (parseRat "100" + (((3 : ℤ) : ℚ) - 1) * parseRat "50") = _
    rw [h100, h50]
    norm_num

theorem ffillCells_isSome (cs : List (Option String)) :
    ∀ (last : Option String), last.isSome → ∀ o ∈ ffillCells last cs, o.isSome := by
  induction cs with
  | nil =>
    intro last _ o ho
    cases ho
  | cons c rest ih =>
    intro last hlast o ho
    cases c with
    | none =>
      rcases List.mem_cons.mp ho with rfl | hmem
      · exact hlast
      · exact ih last hlast o hmem
    | some s =>
      rcases List.mem_cons.mp ho with rfl | hmem
      · rfl
      · exact ih (some s) rfl o hmem

theorem joinColumns_isSome :
    ∀ (l : List (Option String × String)), (∀ p ∈ l, p.1.isSome) →
      ∃ v, joinColumns l = some v := by
  intro l
  induction l with
  | nil => exact fun _ => ⟨[], rfl⟩
  | cons p rest ih =>
    intro h
    obtain ⟨v, hv⟩ := ih (fun q hq => h q (List.mem_cons_of_mem _ hq))
    rcases p with ⟨p1, p2⟩
    cases p1 with
    | none => simpa using h (none, p2) (List.mem_cons_self _ _)
    | some g0 => exact ⟨(g0 ++ "__" ++ p2) :: v, by simp [joinColumns, hv]⟩

/-- C3 counterexample: on the group cells of the claimed example the leading
blank group cell has no previous non-blank group, is never forward-filled,
and the `"__".join` fails on the missing value (`TypeError` on `nan`), so the
claimed column names are not produced. -/
theorem dstat_header_blank_first_group_counterexample :
    dstat_column_names ["", "cpu", "", "mem"] ["epoch", "usr", "sys", "used"] = none
    ∧ dstat_column_names ["", "cpu", "", "mem"] ["epoch", "usr", "sys", "used"]
        ≠ some ["epoch", "cpu__usr", "cpu__sys", "mem__used"] :=
  ⟨rfl, by
    intro hc
    rw [show dstat_column_names ["", "cpu", "", "mem"] ["epoch", "usr", "sys", "used"] = none
      from rfl] at hc
    cases hc⟩

/-- C3 (amended): blank group cells are forward-filled from the previous
non-blank group, spaces and slashes become underscores, colon prefixes are
stripped from the metric level, and the levels are joined with a double
underscore; the first group cell must be non-blank for the join to succeed (a
leading blank stays missing and the join fails).  With group cells
["epoch", "cpu", "", "mem"] and metric cells ["epoch", "usr", "sys", "used"]
the final names are ["epoch", "cpu__usr", "cpu__sys", "mem__used"] (after the
`epoch__epoch` → `epoch` rename), and every header whose first group cell is
non-blank joins successfully. -/
theorem dstat_header_normalization_amended :
    dstat_column_names ["epoch", "cpu", "", "mem"] ["epoch", "usr", "sys", "used"]
      = some ["epoch", "cpu__usr", "cpu__sys", "mem__used"]
    ∧ ∀ (g : String) (gs ms : List String), g ≠ "" →
        ∃ names, dstat_column_names (g :: gs) ms = some names := by
  constructor
  · rfl
  · intro g gs ms hg
    have hga : (g :: gs).map groupCellToOpt = some g :: gs.map groupCellToOpt := by
      simp [groupCellToOpt, hg]
    have hcells : ∀ o ∈ ffillCells none ((g :: gs).map groupCellToOpt), o.isSome := by
      rw [hga]
      intro o ho
      rcases List.mem_cons.mp ho with rfl | hmem
      · rfl
      · exact ffillCells_isSome _ (some g) rfl o hmem
    simp only [dstat_column_names]
    have hzip : ∀ p ∈ (((ffillCells none ((g :: gs).map groupCellToOpt)).map
          (Option.map replaceSpaceSlash)).map (Option.map renameLabel)).zip
          ((ms.map stripMetricLabel).map renameLabel), p.1.isSome := by
      rintro ⟨p1, p2⟩ hp
      have h1 := (List.of_mem_zip hp).1
      rcases List.mem_map.mp h1 with ⟨o1, ho1, rfl⟩
      rcases List.mem_map.mp ho1 with ⟨o0, ho0, rfl⟩
      rcases Option.isSome_iff_exists.mp (hcells o0 ho0) with ⟨a, rfl⟩
      rfl
    obtain ⟨v, hv⟩ := joinColumns_isSome _ hzip
    exact ⟨v.map (fun s => if s = "epoch__epoch" then "epoch" else s), by rw [hv]; rfl⟩

/-- C3 witness: the amended general statement applied to the corrected
example header. -/
theorem dstat_header_normalization_amended_witness :
    ∃ names, dstat_column_names ["epoch", "cpu", "", "mem"] ["epoch", "usr", "sys", "used"]
      = some names :=
  dstat_header_normalization_amended.2 "epoch" ["cpu", "", "mem"]
    ["epoch", "usr", "sys", "used"] (by decide)
